import Mathlib

/-!
Verification of the token-refresher library (backoff.go) against its
specification.

The Go source is shallowly embedded as follows.

The only shared mutable state is the cached token string, guarded by a
reader/writer mutex.  A call to the method refresh is embedded as a pure
function producing, besides the returned (delay, error) pair, a trace of
the externally meaningful events it performs in order: acquiring and
releasing the exclusive lock, writing the token field (setToken), calling
the Retriever, and detecting the shutdown signal.  Durations
(time.Duration) are embedded as integers; only subtraction is ever
performed on them, so the unit is irrelevant.

Nondeterminism of the Go scheduler is resolved by an Oracle:
  - retr n       : the outcome of the n-th Retriever call made during the
                   refresh call (counting from 0, across both phases);
  - shutdownAt   : the index of the select statement, counting every
                   select executed inside refreshInner during the call, at
                   which the done branch is taken (none when shutdown never
                   wins a select).
The exponential backoff ticker stops after a bounded number of ticks
(MaxElapsedTime); that bound is the parameter expTicks.  The real ticker
of the backoff library always delivers at least one tick before it stops,
so faithful executions have 1 <= expTicks.  The constant backoff ticker
never stops on its own; since the Retriever may fail forever, refreshInner
is given fuel, and a result of none means the modelled execution did not
terminate within the fuel (the Go loop is still running), never an early
exit.
-/

namespace Backoff

/-- Error values that flow through the library: ErrShutdown, the
"Token is invalid or expired" error returned by GetToken, and an
arbitrary error returned by a Retriever call. -/
inductive GoErr where
  | shutdown
  | invalidOrExpired
  | retrieveFail (msg : String)
deriving DecidableEq, Repr

/-- Outcome of one call to TokenRetriever.RetrieveToken.  In Go a failing
call still returns concrete token and expiresIn values alongside the
error (the forced path of refresh stores that token value even on
failure), so the failure case carries them. -/
inductive RetrOutcome where
  | ok (token : String) (expiresIn : Int)
  | fail (token : String) (expiresIn : Int) (msg : String)
deriving DecidableEq, Repr

/-- Events recorded by one execution of refresh, in program order:
mu.Lock, mu.Unlock, setToken, a Retriever call, and the moment the done
branch of a select fires. -/
inductive Ev where
  | lock
  | unlock
  | write (t : String)
  | retrieve (o : RetrOutcome)
  | shutdownSignal
deriving DecidableEq, Repr

/-- Resolution of the environment nondeterminism for one refresh call. -/
structure Oracle where
  retr : Nat → RetrOutcome
  shutdownAt : Option Nat

/-- Value returned by refreshInner, together with the updated Retriever
call counter, the updated select counter, and the trace of its events. -/
structure InnerResult where
  token : String
  expiresIn : Int
  err : Option GoErr
  calls : Nat
  sels : Nat
  trace : List Ev
deriving DecidableEq, Repr

/-- Embedding of refreshInner.  ticks is the number of ticks the backoff
ticker will still deliver before closing its channel: some n for the
exponential strategy (which stops after MaxElapsedTime), none for the
constant strategy (which never stops).  c and s are the global Retriever
call counter and select counter, lastErr the err named return accumulated
from failing calls of this invocation.  The fuel bounds the recursion;
none means the loop was still running when the fuel ran out. -/
def refreshInner (O : Oracle) :
    Option Nat → Nat → Nat → Nat → Option GoErr → Option InnerResult
  | _, 0, _, _, _ => none
  | ticks, fuel + 1, c, s, lastErr =>
    if O.shutdownAt = some s then
      -- case <-done: ticker.Stop(); return "", 0, ErrShutdown
      some ⟨"", 0, some .shutdown, c, s + 1, [.shutdownSignal]⟩
    else if ticks = some 0 then
      -- the ticker channel is closed: max elapsed time was hit
      some ⟨"", 0, lastErr, c, s + 1, []⟩
    else
      match O.retr c with
      | .ok t v =>
        -- ticker.Stop(); return token, expiresIn, nil
        some ⟨t, v, none, c + 1, s + 1, [.retrieve (.ok t v)]⟩
      | .fail ft fv msg =>
        -- err = rErr; log; continue
        (refreshInner O (ticks.map (fun n => n - 1)) fuel (c + 1) (s + 1)
            (some (.retrieveFail msg))).map
          (fun r => { r with trace := .retrieve (.fail ft fv msg) :: r.trace })

/-- Value returned by refresh, with the total number of Retriever calls
made and the full event trace. -/
structure RefreshResult where
  expiresIn : Int
  err : Option GoErr
  calls : Nat
  trace : List Ev
deriving DecidableEq, Repr

/-- Embedding of refresh.  buffer is m.refreshBuffer, expTicks the number
of ticks of the exponential ticker (determined by MaxElapsedTime =
refreshBuffer minus one second), fuel the modelling bound for the loops.
The trace makes every mu.Lock, mu.Unlock and setToken of the source
explicit, including the deferred Unlock executed on each return path. -/
def refresh (buffer : Int) (O : Oracle) (expTicks fuel : Nat) (force : Bool) :
    Option RefreshResult :=
  if force then
    -- m.mu.Lock(); defer m.mu.Unlock(); one unconditional attempt
    match O.retr 0 with
    | .ok t v =>
      -- m.setToken(token); return expiresIn - m.refreshBuffer, nil
      some ⟨v - buffer, none, 1, [.lock, .retrieve (.ok t v), .write t, .unlock]⟩
    | .fail ft fv msg =>
      -- m.setToken(token) stores the value returned with the error; log
      let pre : List Ev := [.lock, .retrieve (.fail ft fv msg), .write ft]
      match refreshInner O (some expTicks) fuel 1 0 none with
      | none => none
      | some r1 =>
        if r1.err = none then
          some ⟨r1.expiresIn - buffer, none, r1.calls,
            pre ++ r1.trace ++ [.write r1.token, .unlock]⟩
        else if r1.err = some .shutdown then
          some ⟨0, some .shutdown, r1.calls, pre ++ r1.trace ++ [.unlock]⟩
        else
          match refreshInner O none fuel r1.calls r1.sels none with
          | none => none
          | some r2 =>
            if r2.err = some .shutdown then
              some ⟨0, some .shutdown, r2.calls,
                pre ++ r1.trace ++ r2.trace ++ [.unlock]⟩
            else
              some ⟨r2.expiresIn - buffer, none, r2.calls,
                pre ++ r1.trace ++ r2.trace ++ [.write r2.token, .unlock]⟩
  else
    match refreshInner O (some expTicks) fuel 0 0 none with
    | none => none
    | some r1 =>
      if r1.err = none then
        -- exponential phase succeeded: m.setToken(token) with NO lock
        -- acquisition anywhere on this path in the source
        some ⟨r1.expiresIn - buffer, none, r1.calls, r1.trace ++ [.write r1.token]⟩
      else if r1.err = some .shutdown then
        some ⟨0, some .shutdown, r1.calls, r1.trace⟩
      else
        -- m.mu.Lock(); defer m.mu.Unlock(); m.setToken(token) clears to ""
        match refreshInner O none fuel r1.calls r1.sels none with
        | none => none
        | some r2 =>
          if r2.err = some .shutdown then
            some ⟨0, some .shutdown, r2.calls,
              r1.trace ++ [.lock, .write r1.token] ++ r2.trace ++ [.unlock]⟩
          else
            some ⟨r2.expiresIn - buffer, none, r2.calls,
              r1.trace ++ [.lock, .write r1.token] ++ r2.trace ++ [.write r2.token, .unlock]⟩

/-- The token cache value after replaying the write events of a trace on
top of an initial token value. -/
def tokenAfter (init : String) : List Ev → String
  | [] => init
  | .lock :: r => tokenAfter init r
  | .unlock :: r => tokenAfter init r
  | .write t :: r => tokenAfter t r
  | .retrieve _ :: r => tokenAfter init r
  | .shutdownSignal :: r => tokenAfter init r

/-- True when every write event of the trace happens while the exclusive
lock is held; b is whether the lock is held at the start of the trace. -/
def writesLocked : Bool → List Ev → Bool
  | _, [] => true
  | _, .lock :: r => writesLocked true r
  | _, .unlock :: r => writesLocked false r
  | b, .write _ :: r => b && writesLocked b r
  | b, .retrieve _ :: r => writesLocked b r
  | b, .shutdownSignal :: r => writesLocked b r

/-- Events that refreshInner itself can emit. -/
def innerEv : Ev → Bool
  | .retrieve _ => true
  | .shutdownSignal => true
  | _ => false

/-- Retriever call events. -/
def retrieveEv : Ev → Bool
  | .retrieve _ => true
  | _ => false

/-- Token write events. -/
def isWriteEv : Ev → Bool
  | .write _ => true
  | _ => false

/-- The shutdown detection event. -/
def isSigEv : Ev → Bool
  | .shutdownSignal => true
  | _ => false

/-- True when no token write occurs after the first shutdown detection in
the trace. -/
def noWriteAfterShutdown : List Ev → Bool
  | [] => true
  | .shutdownSignal :: r => r.all (fun e => ! isWriteEv e)
  | .lock :: r => noWriteAfterShutdown r
  | .unlock :: r => noWriteAfterShutdown r
  | .write _ :: r => noWriteAfterShutdown r
  | .retrieve _ :: r => noWriteAfterShutdown r

/-- Embedding of GetToken on a cache holding the given token value. -/
def GetToken (token : String) : String × Option GoErr :=
  if token = "" then (token, some .invalidOrExpired) else (token, none)

/-- The externally visible state of a tokenRefresher: the cached token
and whether the done channel has been closed. -/
structure RefresherState where
  token : String
  closed : Bool
deriving DecidableEq, Repr

/-- GetToken as a state transformer: it reads under RLock and never
mutates the state. -/
def GetTokenS (s : RefresherState) : (String × Option GoErr) × RefresherState :=
  (GetToken s.token, s)

/-- Embedding of Close: closeOnce.Do(close(done)); return nil.  It only
marks the done channel closed and always returns a nil error. -/
def Close (s : RefresherState) : RefresherState × Option GoErr :=
  ({ s with closed := true }, none)

/-- State of the unbuffered force channel as seen by Refresh:
receiverReady is true exactly when the refresher goroutine is blocked on
its select ready to receive from the channel, and forcedRefreshes counts
the forced refreshes triggered through the channel. -/
structure ForceChanState where
  receiverReady : Bool
  forcedRefreshes : Nat
deriving DecidableEq, Repr

/-- Embedding of Refresh: a select with a default case on the unbuffered
force channel.  The send succeeds only when the scheduler goroutine is
ready to receive (triggering one forced refresh and leaving the select);
otherwise the request is dropped and the state is unchanged.  The
function is total: the call always returns immediately. -/
def Refresh (s : ForceChanState) : ForceChanState :=
  if s.receiverReady then ⟨false, s.forcedRefreshes + 1⟩ else s

/-- A Retriever that fails on its first k calls (returning empty values
with the error) and succeeds from call k on with the given token and
validity; shutdown never fires.  This realises the scenario "fails
exactly k times then succeeds". -/
def stdOracle (k : Nat) (t : String) (v : Int) : Oracle :=
  ⟨fun n => if n < k then .fail "" 0 "fail" else .ok t v, none⟩

/-- A Retriever that always fails, with the done branch winning the
select of the given index. -/
def failOracle (sAt : Option Nat) : Oracle :=
  ⟨fun _ => .fail "" 0 "fail", sAt⟩

/-! ### Trace utilities -/

theorem tokenAfter_append (init : String) (xs ys : List Ev) :
    tokenAfter init (xs ++ ys) = tokenAfter (tokenAfter init xs) ys := by
  induction xs generalizing init with
  | nil => rfl
  | cons e r ih => cases e <;> simp [tokenAfter, ih]

theorem tokenAfter_of_all_inner (init : String) (tr : List Ev)
    (h : ∀ e ∈ tr, innerEv e = true) : tokenAfter init tr = init := by
  induction tr with
  | nil => rfl
  | cons e r ih =>
    have he := h e (List.mem_cons_self e r)
    have hr := fun x hx => h x (List.mem_cons_of_mem e hx)
    cases e <;> simp_all [innerEv, tokenAfter]

theorem writesLocked_inner_append (b : Bool) (xs ys : List Ev)
    (h : ∀ e ∈ xs, innerEv e = true) :
    writesLocked b (xs ++ ys) = writesLocked b ys := by
  induction xs with
  | nil => rfl
  | cons e r ih =>
    have he := h e (List.mem_cons_self e r)
    have hr := fun x hx => h x (List.mem_cons_of_mem e hx)
    cases e <;> simp_all [innerEv, writesLocked]

theorem noWriteAfterShutdown_append_no_sig (xs ys : List Ev)
    (h : ∀ e ∈ xs, isSigEv e = false) :
    noWriteAfterShutdown (xs ++ ys) = noWriteAfterShutdown ys := by
  induction xs with
  | nil => rfl
  | cons e r ih =>
    have he := h e (List.mem_cons_self e r)
    have hr := fun x hx => h x (List.mem_cons_of_mem e hx)
    cases e <;> simp_all [isSigEv, noWriteAfterShutdown]

theorem retrieveEv_not_sig {e : Ev} (h : retrieveEv e = true) : isSigEv e = false := by
  cases e <;> simp_all [retrieveEv, isSigEv]

theorem retrieveEv_inner {e : Ev} (h : retrieveEv e = true) : innerEv e = true := by
  cases e <;> simp_all [retrieveEv, innerEv]

/-! ### Structural lemmas about refreshInner -/

theorem inner_trace_inner (O : Oracle) (ticks : Option Nat) (fuel c s : Nat)
    (le : Option GoErr) (res : InnerResult)
    (h : refreshInner O ticks fuel c s le = some res) :
    ∀ e ∈ res.trace, innerEv e = true := by
  induction fuel generalizing ticks c s le res with
  | zero => simp [refreshInner] at h
  | succ fuel ih =>
    rw [refreshInner] at h
    split at h
    · cases h; simp [innerEv]
    · split at h
      · cases h; simp
      · rcases ho : O.retr c with ⟨t, v⟩ | ⟨ft, fv, msg⟩ <;> rw [ho] at h
        · cases h; simp [innerEv]
        · rcases Option.map_eq_some'.mp h with ⟨r, hr, hres⟩
          subst hres
          intro e he
          rcases List.mem_cons.mp he with rfl | he2
          · simp [innerEv]
          · exact ih _ _ _ _ _ hr e he2

theorem inner_no_shutdown_trace (O : Oracle) (ticks : Option Nat) (fuel c s : Nat)
    (le : Option GoErr) (res : InnerResult)
    (h : refreshInner O ticks fuel c s le = some res)
    (he : res.err ≠ some GoErr.shutdown) :
    ∀ e ∈ res.trace, retrieveEv e = true := by
  induction fuel generalizing ticks c s le res with
  | zero => simp [refreshInner] at h
  | succ fuel ih =>
    rw [refreshInner] at h
    split at h
    · cases h; simp at he
    · split at h
      · cases h; simp
      · rcases ho : O.retr c with ⟨t, v⟩ | ⟨ft, fv, msg⟩ <;> rw [ho] at h
        · cases h; simp [retrieveEv]
        · rcases Option.map_eq_some'.mp h with ⟨r, hr, hres⟩
          subst hres
          intro e hme
          rcases List.mem_cons.mp hme with rfl | he2
          · simp [retrieveEv]
          · exact ih _ _ _ _ _ hr he e he2

theorem inner_shutdown_shape (O : Oracle) (ticks : Option Nat) (fuel c s : Nat)
    (le : Option GoErr) (res : InnerResult)
    (h : refreshInner O ticks fuel c s le = some res)
    (he : res.err = some GoErr.shutdown)
    (hle : le ≠ some GoErr.shutdown) :
    ∃ pre, res.trace = pre ++ [Ev.shutdownSignal] ∧ ∀ e ∈ pre, retrieveEv e = true := by
  induction fuel generalizing ticks c s le res with
  | zero => simp [refreshInner] at h
  | succ fuel ih =>
    rw [refreshInner] at h
    split at h
    · cases h
      exact ⟨[], rfl, by simp⟩
    · split at h
      · cases h; simp_all
      · rcases ho : O.retr c with ⟨t, v⟩ | ⟨ft, fv, msg⟩ <;> rw [ho] at h
        · cases h; simp at he
        · rcases Option.map_eq_some'.mp h with ⟨r, hr, hres⟩
          subst hres
          rcases ih _ _ _ _ _ hr he (by simp) with ⟨pre, hpre, hall⟩
          refine ⟨Ev.retrieve (.fail ft fv msg) :: pre, by simp [hpre], ?_⟩
          intro e hme
          rcases List.mem_cons.mp hme with rfl | he2
          · simp [retrieveEv]
          · exact hall e he2

theorem inner_const_err (O : Oracle) (fuel c s : Nat) (le : Option GoErr)
    (res : InnerResult)
    (h : refreshInner O none fuel c s le = some res) :
    res.err = none ∨ res.err = some GoErr.shutdown := by
  induction fuel generalizing c s le res with
  | zero => simp [refreshInner] at h
  | succ fuel ih =>
    rw [refreshInner] at h
    split at h
    · cases h; simp
    · split at h
      · simp_all
      · rcases ho : O.retr c with ⟨t, v⟩ | ⟨ft, fv, msg⟩ <;> rw [ho] at h
        · cases h; simp
        · rcases Option.map_eq_some'.mp h with ⟨r, hr, hres⟩
          subst hres
          have := ih (c + 1) (s + 1) (some (GoErr.retrieveFail msg)) r (by simpa using hr)
          simpa using this

theorem inner_ok_mem (O : Oracle) (ticks : Option Nat) (fuel c s : Nat)
    (le : Option GoErr) (res : InnerResult)
    (h : refreshInner O ticks fuel c s le = some res)
    (he : res.err = none)
    (ht : ticks = some 0 → le ≠ none) :
    Ev.retrieve (.ok res.token res.expiresIn) ∈ res.trace := by
  induction fuel generalizing ticks c s le res with
  | zero => simp [refreshInner] at h
  | succ fuel ih =>
    rw [refreshInner] at h
    split at h
    · cases h; simp at he
    · rename_i hsd
      split at h
      · rename_i h0
        cases h
        exact absurd he (ht h0)
      · rcases ho : O.retr c with ⟨t, v⟩ | ⟨ft, fv, msg⟩ <;> rw [ho] at h
        · cases h; simp
        · rcases Option.map_eq_some'.mp h with ⟨r, hr, hres⟩
          subst hres
          exact List.mem_cons_of_mem _ (ih _ _ _ _ _ hr he (by simp))

/-! ### Concrete runs of refreshInner -/

/-- A run in which the next d Retriever calls fail with the standard
failure payload and the following call succeeds ends with the fetched
token and a nil error, having consumed d + 1 calls and d + 1 selects. -/
theorem inner_ok_run (O : Oracle) (t : String) (v : Int) :
    ∀ (d : Nat) (tks : Option Nat) (fuel c s : Nat) (le : Option GoErr),
    (∀ j, j < d → O.retr (c + j) = .fail "" 0 "fail") →
    O.retr (c + d) = .ok t v →
    (∀ j, j ≤ d → O.shutdownAt ≠ some (s + j)) →
    (∀ n, tks = some n → d < n) →
    d + 1 ≤ fuel →
    refreshInner O tks fuel c s le =
      some ⟨t, v, none, c + d + 1, s + d + 1,
        List.replicate d (Ev.retrieve (.fail "" 0 "fail")) ++ [Ev.retrieve (.ok t v)]⟩ := by
  intro d
  induction d with
  | zero =>
    intro tks fuel c s le hfail hok hsd htks hfuel
    obtain ⟨f, rfl⟩ : ∃ f, fuel = f + 1 := ⟨fuel - 1, by omega⟩
    rw [refreshInner]
    rw [if_neg (by simpa using hsd 0 (Nat.le_refl 0))]
    rw [if_neg (fun h0 => absurd (htks 0 h0) (by omega))]
    simp only [Nat.add_zero] at hok
    simp only [hok]
    rfl
  | succ d ih =>
    intro tks fuel c s le hfail hok hsd htks hfuel
    obtain ⟨f, rfl⟩ : ∃ f, fuel = f + 1 := ⟨fuel - 1, by omega⟩
    rw [refreshInner]
    rw [if_neg (by simpa using hsd 0 (Nat.zero_le _))]
    rw [if_neg (fun h0 => absurd (htks 0 h0) (by omega))]
    have h0 : O.retr c = .fail "" 0 "fail" := by simpa using hfail 0 (by omega)
    simp only [h0]
    rw [ih (tks.map (fun n => n - 1)) f (c + 1) (s + 1) (some (.retrieveFail "fail"))
      (fun j hj => by
        rw [show c + 1 + j = c + (j + 1) from by omega]
        exact hfail (j + 1) (by omega))
      (by
        rw [show c + 1 + d = c + (d + 1) from by omega]
        exact hok)
      (fun j hj => by
        rw [show s + 1 + j = s + (j + 1) from by omega]
        exact hsd (j + 1) (by omega))
      (fun n hn => by
        rcases tks with _ | m
        · simp at hn
        · simp only [Option.map_some', Option.some.injEq] at hn
          have hm := htks m rfl
          omega)
      (by omega)]
    simp only [Option.map_some', Option.some.injEq, InnerResult.mk.injEq]
    refine ⟨trivial, trivial, trivial, by omega, by omega, by simp [List.replicate_succ]⟩

/-- Auxiliary exhaustion run with the accumulated error already set. -/
theorem inner_exhaust_run_aux (O : Oracle) :
    ∀ (n : Nat) (fuel c s : Nat),
    (∀ j, j < n → O.retr (c + j) = .fail "" 0 "fail") →
    (∀ j, j ≤ n → O.shutdownAt ≠ some (s + j)) →
    n + 1 ≤ fuel →
    refreshInner O (some n) fuel c s (some (GoErr.retrieveFail "fail")) =
      some ⟨"", 0, some (GoErr.retrieveFail "fail"), c + n, s + n + 1,
        List.replicate n (Ev.retrieve (.fail "" 0 "fail"))⟩ := by
  intro n
  induction n with
  | zero =>
    intro fuel c s hfail hsd hfuel
    obtain ⟨f, rfl⟩ : ∃ f, fuel = f + 1 := ⟨fuel - 1, by omega⟩
    rw [refreshInner]
    rw [if_neg (by simpa using hsd 0 (Nat.le_refl 0))]
    rw [if_pos rfl]
    rfl
  | succ n ih =>
    intro fuel c s hfail hsd hfuel
    obtain ⟨f, rfl⟩ : ∃ f, fuel = f + 1 := ⟨fuel - 1, by omega⟩
    rw [refreshInner]
    rw [if_neg (by simpa using hsd 0 (Nat.zero_le _))]
    rw [if_neg (by simp)]
    have h0 : O.retr c = .fail "" 0 "fail" := by simpa using hfail 0 (by omega)
    simp only [h0, Option.map_some', Nat.add_sub_cancel]
    rw [ih f (c + 1) (s + 1)
      (fun j hj => by
        rw [show c + 1 + j = c + (j + 1) from by omega]
        exact hfail (j + 1) (by omega))
      (fun j hj => by
        rw [show s + 1 + j = s + (j + 1) from by omega]
        exact hsd (j + 1) (by omega))
      (by omega)]
    simp only [Option.map_some', Option.some.injEq, InnerResult.mk.injEq]
    refine ⟨trivial, trivial, trivial, by omega, by omega, by simp [List.replicate_succ]⟩

/-- A run of the exponential phase in which every delivered tick sees a
failing Retriever call exhausts the ticker: the channel closes and the
last Retriever error is returned. -/
theorem inner_exhaust_run (O : Oracle) (n : Nat) (fuel c s : Nat)
    (hn : 1 ≤ n)
    (hfail : ∀ j, j < n → O.retr (c + j) = .fail "" 0 "fail")
    (hsd : ∀ j, j ≤ n → O.shutdownAt ≠ some (s + j))
    (hfuel : n + 1 ≤ fuel) :
    refreshInner O (some n) fuel c s none =
      some ⟨"", 0, some (GoErr.retrieveFail "fail"), c + n, s + n + 1,
        List.replicate n (Ev.retrieve (.fail "" 0 "fail"))⟩ := by
  obtain ⟨m, rfl⟩ : ∃ m, n = m + 1 := ⟨n - 1, by omega⟩
  obtain ⟨f, rfl⟩ : ∃ f, fuel = f + 1 := ⟨fuel - 1, by omega⟩
  rw [refreshInner]
  rw [if_neg (by simpa using hsd 0 (Nat.zero_le _))]
  rw [if_neg (by simp)]
  have h0 : O.retr c = .fail "" 0 "fail" := by simpa using hfail 0 (by omega)
  simp only [h0, Option.map_some', Nat.add_sub_cancel]
  rw [inner_exhaust_run_aux O m f (c + 1) (s + 1)
    (fun j hj => by
      rw [show c + 1 + j = c + (j + 1) from by omega]
      exact hfail (j + 1) (by omega))
    (fun j hj => by
      rw [show s + 1 + j = s + (j + 1) from by omega]
      exact hsd (j + 1) (by omega))
    (by omega)]
  simp only [Option.map_some', Option.some.injEq, InnerResult.mk.injEq]
  refine ⟨trivial, trivial, trivial, by omega, by omega, by simp [List.replicate_succ]⟩

/-! ### Case analysis of refresh -/

/-- Every terminating unforced refresh follows one of three paths of the
source: exponential success (no lock anywhere), shutdown during the
exponential phase, or the expire-and-lock transition followed by the
constant phase under the exclusive lock. -/
theorem refresh_unforced_cases (buffer : Int) (O : Oracle) (eT fuel : Nat)
    (r : RefreshResult)
    (h : refresh buffer O eT fuel false = some r) :
    ∃ r1, refreshInner O (some eT) fuel 0 0 none = some r1 ∧
      ((r1.err = none ∧
          r = ⟨r1.expiresIn - buffer, none, r1.calls, r1.trace ++ [.write r1.token]⟩) ∨
       (r1.err = some .shutdown ∧
          r = ⟨0, some .shutdown, r1.calls, r1.trace⟩) ∨
       (r1.err ≠ none ∧ r1.err ≠ some .shutdown ∧
        ∃ r2, refreshInner O none fuel r1.calls r1.sels none = some r2 ∧
          ((r2.err = some .shutdown ∧
              r = ⟨0, some .shutdown, r2.calls,
                r1.trace ++ [.lock, .write r1.token] ++ r2.trace ++ [.unlock]⟩) ∨
           (r2.err ≠ some .shutdown ∧
              r = ⟨r2.expiresIn - buffer, none, r2.calls,
                r1.trace ++ [.lock, .write r1.token] ++ r2.trace ++
                  [.write r2.token, .unlock]⟩)))) := by
  rw [refresh, if_neg (by simp)] at h
  rcases h1 : refreshInner O (some eT) fuel 0 0 none with _ | r1 <;> rw [h1] at h
  · simp at h
  refine ⟨r1, rfl, ?_⟩
  simp only at h
  split_ifs at h with he1 he2
  · exact Or.inl ⟨he1, (Option.some_inj.mp h).symm⟩
  · exact Or.inr (Or.inl ⟨he2, (Option.some_inj.mp h).symm⟩)
  · rcases h2 : refreshInner O none fuel r1.calls r1.sels none with _ | r2 <;> rw [h2] at h
    · simp at h
    refine Or.inr (Or.inr ⟨he1, he2, r2, rfl, ?_⟩)
    simp only at h
    split_ifs at h with he3
    · exact Or.inl ⟨he3, (Option.some_inj.mp h).symm⟩
    · exact Or.inr ⟨he3, (Option.some_inj.mp h).symm⟩

/-- Every terminating forced refresh follows one of the source paths: the
immediate attempt succeeds; or it fails and the exponential phase
succeeds, is interrupted by shutdown, or exhausts and is followed by the
constant phase, all with the exclusive lock held from start to finish. -/
theorem refresh_forced_cases (buffer : Int) (O : Oracle) (eT fuel : Nat)
    (r : RefreshResult)
    (h : refresh buffer O eT fuel true = some r) :
    (∃ t v, O.retr 0 = .ok t v ∧
       r = ⟨v - buffer, none, 1, [.lock, .retrieve (.ok t v), .write t, .unlock]⟩) ∨
    (∃ ft fv msg, O.retr 0 = .fail ft fv msg ∧
     ∃ r1, refreshInner O (some eT) fuel 1 0 none = some r1 ∧
      ((r1.err = none ∧
          r = ⟨r1.expiresIn - buffer, none, r1.calls,
            [.lock, .retrieve (.fail ft fv msg), .write ft] ++ r1.trace ++
              [.write r1.token, .unlock]⟩) ∨
       (r1.err = some .shutdown ∧
          r = ⟨0, some .shutdown, r1.calls,
            [.lock, .retrieve (.fail ft fv msg), .write ft] ++ r1.trace ++ [.unlock]⟩) ∨
       (r1.err ≠ none ∧ r1.err ≠ some .shutdown ∧
        ∃ r2, refreshInner O none fuel r1.calls r1.sels none = some r2 ∧
          ((r2.err = some .shutdown ∧
              r = ⟨0, some .shutdown, r2.calls,
                [.lock, .retrieve (.fail ft fv msg), .write ft] ++ r1.trace ++ r2.trace ++
                  [.unlock]⟩) ∨
           (r2.err ≠ some .shutdown ∧
              r = ⟨r2.expiresIn - buffer, none, r2.calls,
                [.lock, .retrieve (.fail ft fv msg), .write ft] ++ r1.trace ++ r2.trace ++
                  [.write r2.token, .unlock]⟩))))) := by
  rw [refresh, if_pos rfl] at h
  rcases h0 : O.retr 0 with ⟨t, v⟩ | ⟨ft, fv, msg⟩ <;> rw [h0] at h
  · exact Or.inl ⟨t, v, rfl, (Option.some_inj.mp h).symm⟩
  refine Or.inr ⟨ft, fv, msg, rfl, ?_⟩
  simp only at h
  rcases h1 : refreshInner O (some eT) fuel 1 0 none with _ | r1 <;> rw [h1] at h
  · simp at h
  refine ⟨r1, rfl, ?_⟩
  simp only at h
  split_ifs at h with he1 he2
  · exact Or.inl ⟨he1, (Option.some_inj.mp h).symm⟩
  · exact Or.inr (Or.inl ⟨he2, (Option.some_inj.mp h).symm⟩)
  · rcases h2 : refreshInner O none fuel r1.calls r1.sels none with _ | r2 <;> rw [h2] at h
    · simp at h
    refine Or.inr (Or.inr ⟨he1, he2, r2, rfl, ?_⟩)
    simp only at h
    split_ifs at h with he3
    · exact Or.inl ⟨he3, (Option.some_inj.mp h).symm⟩
    · exact Or.inr ⟨he3, (Option.some_inj.mp h).symm⟩

/-- In a state where the scheduler goroutine is not at its select, every
request sent through the unbuffered force channel is dropped and the
state is unchanged, no matter how many requests are made. -/
theorem Refresh_iterate_not_ready (n m : Nat) :
    Refresh^[n] ⟨false, m⟩ = ⟨false, m⟩ := by
  induction n with
  | zero => rfl
  | succ n ih =>
    rw [Function.iterate_succ_apply, show Refresh ⟨false, m⟩ = ⟨false, m⟩ from rfl, ih]

/-! ### Claims -/

/-- Claim C1, evidence of the code bug.  In an unforced refresh whose
exponential phase succeeds on the first attempt (Retriever returns token
t1 with validity 100), the source updates the cached token via setToken
on the success path, but the trace of that execution contains no lock
acquisition at all: the write of the new token happens while the
exclusive lock is NOT held (writesLocked is false), contradicting the
claim that the write happens under the exclusive lock.  The old token is
indeed readable at every point before the update (no earlier write), and
the final cached value is the fetched token. -/
theorem C1_unforced_success_write_unlocked :
    (refresh 5 (stdOracle 0 "t1" 100) 1 10 false).map
        (fun r => (r.trace, writesLocked false r.trace, tokenAfter "old" r.trace, r.err)) =
      some ([.retrieve (.ok "t1" 100), .write "t1"], false, "t1", none) := by decide

/-- Claim C3: a forced refresh whose immediate unconditional attempt
succeeds with token t and validity v stores t in the cache, holds the
exclusive lock for the entire call and releases it at return (the trace
is exactly lock, fetch, write, unlock), and returns v - refreshBuffer
with a nil error. -/
theorem C3_forced_immediate_success (buffer : Int) (O : Oracle) (eT fuel : Nat)
    (t : String) (v : Int) (init : String) (h : O.retr 0 = .ok t v) :
    refresh buffer O eT fuel true =
      some ⟨v - buffer, none, 1, [.lock, .retrieve (.ok t v), .write t, .unlock]⟩ ∧
    tokenAfter init [Ev.lock, .retrieve (.ok t v), .write t, .unlock] = t ∧
    writesLocked false [Ev.lock, .retrieve (.ok t v), .write t, .unlock] = true := by
  refine ⟨?_, rfl, rfl⟩
  rw [refresh, if_pos rfl, h]

/-- Witness for C3 at a concrete input. -/
theorem C3_forced_immediate_success_witness :
    refresh 300 (stdOracle 0 "tok" 3600) 1 10 true =
      some ⟨3600 - 300, none, 1,
        [.lock, .retrieve (.ok "tok" 3600), .write "tok", .unlock]⟩ ∧
    tokenAfter "old" [Ev.lock, .retrieve (.ok "tok" 3600), .write "tok", .unlock] = "tok" ∧
    writesLocked false [Ev.lock, .retrieve (.ok "tok" 3600), .write "tok", .unlock] = true :=
  C3_forced_immediate_success 300 (stdOracle 0 "tok" 3600) 1 10 "tok" 3600 "old" (by decide)

/-- Claim C6: GetToken returns the invalid-or-expired failure exactly
when the stored token is the empty string, otherwise it returns the
stored token with a nil error, and it never mutates the state. -/
theorem C6_get_token_empty_iff_error (s : RefresherState) :
    (GetTokenS s).1 = (s.token, if s.token = "" then some GoErr.invalidOrExpired else none) ∧
    ((GetTokenS s).1.2 = some GoErr.invalidOrExpired ↔ s.token = "") ∧
    (GetTokenS s).2 = s := by
  refine ⟨?_, ?_, rfl⟩ <;> by_cases h : s.token = "" <;> simp [GetTokenS, GetToken, h]

/-- Claim C8: with refreshBuffer five minutes (300 seconds) and a
Retriever that always succeeds returning validity 3600 seconds, a forced
refresh returns delay 3600 s - 5 min = 3300 s, makes exactly one
Retriever call, and the cache holds the fetched token. -/
theorem C8_example_scenario :
    (refresh 300 (stdOracle 0 "tok" 3600) 1 10 true).map
        (fun r => (r.expiresIn, r.err, r.calls, tokenAfter "" r.trace)) =
      some ((3300 : Int), none, 1, "tok") ∧ (3300 : Int) = 3600 - 300 :=
  ⟨by decide, by decide⟩

/-- Claim C9: Refresh is total (it returns at once in every state); when
the scheduler goroutine is not ready to receive, the request is silently
dropped leaving the state unchanged; and any number of consecutive
Refresh calls triggers at most one extra forced refresh, since the first
delivered request leaves the scheduler busy. -/
theorem C9_refresh_request_coalescing :
    (∀ (s : ForceChanState) (n : Nat),
        (Refresh^[n] s).forcedRefreshes ≤ s.forcedRefreshes + 1) ∧
    (∀ m : Nat, Refresh ⟨false, m⟩ = ⟨false, m⟩) := by
  constructor
  · intro s n
    cases n with
    | zero => exact Nat.le_succ _
    | succ n =>
      rw [Function.iterate_succ_apply]
      rcases s with ⟨ready, m⟩
      cases ready
      · rw [show Refresh ⟨false, m⟩ = ⟨false, m⟩ from rfl, Refresh_iterate_not_ready]
        exact Nat.le_succ m
      · rw [show Refresh ⟨true, m⟩ = ⟨false, m + 1⟩ from rfl, Refresh_iterate_not_ready]
  · intro m
    rfl

/-- Claim C10: when a Retriever call succeeds but returns the empty
string, a forced refresh stores the empty string and reports success
(delay v - refreshBuffer, nil error), and GetToken on the resulting
cache returns the invalid-or-expired failure, indistinguishable from
having no token. -/
theorem C10_empty_token_success (buffer v : Int) (eT fuel : Nat) (init : String) :
    (∃ r, refresh buffer (stdOracle 0 "" v) eT fuel true = some r ∧
       r.err = none ∧ r.expiresIn = v - buffer ∧ tokenAfter init r.trace = "") ∧
    GetToken "" = ("", some GoErr.invalidOrExpired) := by
  refine ⟨⟨⟨v - buffer, none, 1, [.lock, .retrieve (.ok "" v), .write "", .unlock]⟩,
    ?_, rfl, rfl, rfl⟩, rfl⟩
  rw [refresh, if_pos rfl, show (stdOracle 0 "" v).retr 0 = .ok "" v from rfl]

/-- Claim C2: if the Retriever fails exactly k times and then succeeds
with validity v, a forced refresh calls the Retriever exactly k + 1
times and returns delay v - refreshBuffer with a nil error, whatever the
split between the exponential and constant phases. -/
theorem C2_forced_k_failures_then_success (k : Nat) (buffer : Int) (t : String) (v : Int)
    (eT fuel : Nat) (hT : 1 ≤ eT) (hf : k + 2 ≤ fuel) :
    ∃ r, refresh buffer (stdOracle k t v) eT fuel true = some r ∧
      r.calls = k + 1 ∧ r.err = none ∧ r.expiresIn = v - buffer := by
  rcases k with _ | k1
  · refine ⟨⟨v - buffer, none, 1, [.lock, .retrieve (.ok t v), .write t, .unlock]⟩,
      ?_, rfl, rfl, rfl⟩
    rw [refresh, if_pos rfl, show (stdOracle 0 t v).retr 0 = .ok t v from rfl]
  · have h0 : (stdOracle (k1 + 1) t v).retr 0 = .fail "" 0 "fail" := by
      simp [stdOracle]
    by_cases hcase : k1 < eT
    · -- the success arrives within the exponential phase
      have h1 := inner_ok_run (stdOracle (k1 + 1) t v) t v k1 (some eT) fuel 1 0 none
        (fun j hj => by simp only [stdOracle]; rw [if_pos (by omega)])
        (by simp only [stdOracle]; rw [if_neg (by omega)])
        (fun j hj => by simp [stdOracle])
        (fun n hn => by rcases Option.some_inj.mp hn with rfl; exact hcase)
        (by omega)
      have hR : refresh buffer (stdOracle (k1 + 1) t v) eT fuel true =
          some ⟨v - buffer, none, 1 + k1 + 1,
            [.lock, .retrieve (.fail "" 0 "fail"), .write ""] ++
              (List.replicate k1 (Ev.retrieve (.fail "" 0 "fail")) ++
                [Ev.retrieve (.ok t v)]) ++
              [.write t, .unlock]⟩ := by
        rw [refresh, if_pos rfl]
        simp only [h0, h1]
        rfl
      refine ⟨_, hR, ?_, rfl, rfl⟩
      show 1 + k1 + 1 = k1 + 1 + 1
      omega
    · -- the exponential phase exhausts; the constant phase succeeds
      have h1 := inner_exhaust_run (stdOracle (k1 + 1) t v) eT fuel 1 0 hT
        (fun j hj => by simp only [stdOracle]; rw [if_pos (by omega)])
        (fun j hj => by simp [stdOracle])
        (by omega)
      have h2 := inner_ok_run (stdOracle (k1 + 1) t v) t v (k1 - eT) none fuel
        (1 + eT) (0 + eT + 1) none
        (fun j hj => by simp only [stdOracle]; rw [if_pos (by omega)])
        (by simp only [stdOracle]; rw [if_neg (by omega)])
        (fun j hj => by simp [stdOracle])
        (fun n hn => Option.noConfusion hn)
        (by omega)
      have hR : refresh buffer (stdOracle (k1 + 1) t v) eT fuel true =
          some ⟨v - buffer, none, 1 + eT + (k1 - eT) + 1,
            [.lock, .retrieve (.fail "" 0 "fail"), .write ""] ++
              List.replicate eT (Ev.retrieve (.fail "" 0 "fail")) ++
              (List.replicate (k1 - eT) (Ev.retrieve (.fail "" 0 "fail")) ++
                [Ev.retrieve (.ok t v)]) ++
              [.write t, .unlock]⟩ := by
        rw [refresh, if_pos rfl]
        simp only [h0, h1]
        rw [if_neg (by simp), if_neg (by simp)]
        simp only [h2]
        rw [if_neg (by simp)]
      refine ⟨_, hR, ?_, rfl, rfl⟩
      show 1 + eT + (k1 - eT) + 1 = k1 + 1 + 1
      omega

/-- Witness for C2 at a concrete input (three failures then success,
crossing from the exponential into the constant phase). -/
theorem C2_forced_k_failures_then_success_witness :
    ∃ r, refresh 300 (stdOracle 3 "tok" 3600) 1 10 true = some r ∧
      r.calls = 3 + 1 ∧ r.err = none ∧ r.expiresIn = 3600 - 300 :=
  C2_forced_k_failures_then_success 3 300 "tok" 3600 1 10 (by decide) (by decide)

/-- Claim C5: every terminating refresh, forced or not, returns either
the shutdown failure or a nil error; in the latter case the returned
delay is v - refreshBuffer for the validity v of a successful Retriever
call of the execution.  No other error is ever returned. -/
theorem C5_error_taxonomy (buffer : Int) (O : Oracle) (eT fuel : Nat) (force : Bool)
    (r : RefreshResult) (hT : 1 ≤ eT)
    (h : refresh buffer O eT fuel force = some r) :
    r.err = some GoErr.shutdown ∨
      (r.err = none ∧ ∃ t v, Ev.retrieve (.ok t v) ∈ r.trace ∧ r.expiresIn = v - buffer) := by
  have hT0 : ((some eT : Option Nat) = some 0 → (none : Option GoErr) ≠ none) :=
    fun h0 => absurd (Option.some_inj.mp h0) (by omega)
  cases force
  · rcases refresh_unforced_cases buffer O eT fuel r h with ⟨r1, h1, hc⟩
    rcases hc with ⟨he, rfl⟩ | ⟨he, rfl⟩ | ⟨hne, hns, r2, h2, hc2⟩
    · refine Or.inr ⟨rfl, r1.token, r1.expiresIn, ?_, rfl⟩
      exact List.mem_append.mpr (Or.inl (inner_ok_mem O (some eT) fuel 0 0 none r1 h1 he hT0))
    · exact Or.inl rfl
    · rcases hc2 with ⟨he2, rfl⟩ | ⟨hne2, rfl⟩
      · exact Or.inl rfl
      · have he2n : r2.err = none :=
          (inner_const_err O fuel r1.calls r1.sels none r2 h2).resolve_right hne2
        have hm := inner_ok_mem O none fuel r1.calls r1.sels none r2 h2 he2n
          (fun h0 => Option.noConfusion h0)
        refine Or.inr ⟨rfl, r2.token, r2.expiresIn, ?_, rfl⟩
        exact List.mem_append.mpr (Or.inl (List.mem_append.mpr (Or.inr hm)))
  · rcases refresh_forced_cases buffer O eT fuel r h with
      ⟨t, v, h0, rfl⟩ | ⟨ft, fv, msg, h0, r1, h1, hc⟩
    · exact Or.inr ⟨rfl, t, v, by simp, rfl⟩
    · rcases hc with ⟨he, rfl⟩ | ⟨he, rfl⟩ | ⟨hne, hns, r2, h2, hc2⟩
      · have hm := inner_ok_mem O (some eT) fuel 1 0 none r1 h1 he hT0
        refine Or.inr ⟨rfl, r1.token, r1.expiresIn, ?_, rfl⟩
        exact List.mem_append.mpr (Or.inl (List.mem_append.mpr (Or.inr hm)))
      · exact Or.inl rfl
      · rcases hc2 with ⟨he2, rfl⟩ | ⟨hne2, rfl⟩
        · exact Or.inl rfl
        · have he2n : r2.err = none :=
            (inner_const_err O fuel r1.calls r1.sels none r2 h2).resolve_right hne2
          have hm := inner_ok_mem O none fuel r1.calls r1.sels none r2 h2 he2n
            (fun h0 => Option.noConfusion h0)
          refine Or.inr ⟨rfl, r2.token, r2.expiresIn, ?_, rfl⟩
          exact List.mem_append.mpr (Or.inl (List.mem_append.mpr (Or.inr hm)))

/-- Witness for C5 at a concrete input. -/
theorem C5_error_taxonomy_witness :
    (⟨3300, none, 1,
        [Ev.lock, .retrieve (.ok "tok" 3600), .write "tok", .unlock]⟩ :
          RefreshResult).err = some GoErr.shutdown ∨
      ((⟨3300, none, 1,
          [Ev.lock, .retrieve (.ok "tok" 3600), .write "tok", .unlock]⟩ :
            RefreshResult).err = none ∧
        ∃ t v, Ev.retrieve (.ok t v) ∈
            (⟨3300, none, 1,
              [Ev.lock, .retrieve (.ok "tok" 3600), .write "tok", .unlock]⟩ :
                RefreshResult).trace ∧
          (⟨3300, none, 1,
            [Ev.lock, .retrieve (.ok "tok" 3600), .write "tok", .unlock]⟩ :
              RefreshResult).expiresIn = v - 300) :=
  C5_error_taxonomy 300 (stdOracle 0 "tok" 3600) 1 10 true
    ⟨3300, none, 1, [Ev.lock, .retrieve (.ok "tok" 3600), .write "tok", .unlock]⟩
    (by decide) (by decide)

/-- Signal-freedom is preserved by list concatenation. -/
theorem all_no_sig_append {xs ys : List Ev} (hx : ∀ e ∈ xs, isSigEv e = false)
    (hy : ∀ e ∈ ys, isSigEv e = false) : ∀ e ∈ xs ++ ys, isSigEv e = false := by
  intro e hme
  rcases List.mem_append.mp hme with h | h
  · exact hx e h
  · exact hy e h

/-- The three leading events of a failed forced attempt contain no shutdown event. -/
theorem no_sig_forced_pre (ft : String) (fv : Int) (msg : String) :
    ∀ e ∈ [Ev.lock, Ev.retrieve (.fail ft fv msg), Ev.write ft], isSigEv e = false := by
  intro e hme
  rcases List.mem_cons.mp hme with rfl | hme2
  · rfl
  rcases List.mem_cons.mp hme2 with rfl | hme3
  · rfl
  rcases List.mem_singleton.mp hme3 with rfl
  rfl

/-- The expire-and-lock transition contains no shutdown event. -/
theorem no_sig_lock_write (x : String) :
    ∀ e ∈ [Ev.lock, Ev.write x], isSigEv e = false := by
  intro e hme
  rcases List.mem_cons.mp hme with rfl | hme2
  · rfl
  rcases List.mem_singleton.mp hme2 with rfl
  rfl

/-- Claim C7: shutdown does not clear a still-valid token.  Close only
marks the done channel closed, is idempotent, and leaves the cached
token untouched; any refresh that returns the shutdown failure performs
no token write after the shutdown signal is detected; and an unforced
refresh abandoned by shutdown during its exponential phase (before the
expire-and-lock transition, hence no lock event in its trace) leaves the
cached token exactly as it was. -/
theorem C7_shutdown_preserves_token :
    (∀ s : RefresherState, (Close s).1.token = s.token ∧
       Close (Close s).1 = Close s ∧ (Close s).2 = none) ∧
    (∀ (buffer : Int) (O : Oracle) (eT fuel : Nat) (force : Bool) (r : RefreshResult),
       refresh buffer O eT fuel force = some r → r.err = some GoErr.shutdown →
       noWriteAfterShutdown r.trace = true) ∧
    (∀ (buffer : Int) (O : Oracle) (eT fuel : Nat) (r : RefreshResult) (init : String),
       refresh buffer O eT fuel false = some r → r.err = some GoErr.shutdown →
       Ev.lock ∉ r.trace → tokenAfter init r.trace = init) := by
  refine ⟨fun s => ⟨rfl, rfl, rfl⟩, ?_, ?_⟩
  · intro buffer O eT fuel force r h he
    cases force
    · rcases refresh_unforced_cases buffer O eT fuel r h with ⟨r1, h1, hc⟩
      rcases hc with ⟨he1, rfl⟩ | ⟨he1, rfl⟩ | ⟨hne, hns, r2, h2, hc2⟩
      · exact absurd he (by simp)
      · rcases inner_shutdown_shape O (some eT) fuel 0 0 none r1 h1 he1 (by simp)
          with ⟨pre, hpre, hall⟩
        show noWriteAfterShutdown r1.trace = true
        rw [hpre, noWriteAfterShutdown_append_no_sig pre [Ev.shutdownSignal]
          (fun e hme => retrieveEv_not_sig (hall e hme))]
        rfl
      · have hall1 := inner_no_shutdown_trace O (some eT) fuel 0 0 none r1 h1 hns
        rcases hc2 with ⟨he2, rfl⟩ | ⟨hne2, rfl⟩
        · rcases inner_shutdown_shape O none fuel r1.calls r1.sels none r2 h2 he2 (by simp)
            with ⟨pre2, hpre2, hall2⟩
          show noWriteAfterShutdown
            (r1.trace ++ [Ev.lock, Ev.write r1.token] ++ r2.trace ++ [Ev.unlock]) = true
          have hsplit : r1.trace ++ [Ev.lock, Ev.write r1.token] ++ r2.trace ++ [Ev.unlock] =
              (r1.trace ++ [Ev.lock, Ev.write r1.token] ++ pre2) ++
                (Ev.shutdownSignal :: [Ev.unlock]) := by
            rw [hpre2]
            simp
          have hnosig : ∀ e ∈ r1.trace ++ [Ev.lock, Ev.write r1.token] ++ pre2,
              isSigEv e = false :=
            all_no_sig_append
              (all_no_sig_append (fun e hme => retrieveEv_not_sig (hall1 e hme))
                (no_sig_lock_write r1.token))
              (fun e hme => retrieveEv_not_sig (hall2 e hme))
          rw [hsplit, noWriteAfterShutdown_append_no_sig _ _ hnosig]
          rfl
        · exact absurd he (by simp)
    · rcases refresh_forced_cases buffer O eT fuel r h with
        ⟨t, v, h0, rfl⟩ | ⟨ft, fv, msg, h0, r1, h1, hc⟩
      · exact absurd he (by simp)
      · rcases hc with ⟨he1, rfl⟩ | ⟨he1, rfl⟩ | ⟨hne, hns, r2, h2, hc2⟩
        · exact absurd he (by simp)
        · rcases inner_shutdown_shape O (some eT) fuel 1 0 none r1 h1 he1 (by simp)
            with ⟨pre, hpre, hall⟩
          show noWriteAfterShutdown
            ([Ev.lock, Ev.retrieve (.fail ft fv msg), Ev.write ft] ++ r1.trace ++
              [Ev.unlock]) = true
          have hsplit : [Ev.lock, Ev.retrieve (.fail ft fv msg), Ev.write ft] ++ r1.trace ++
                [Ev.unlock] =
              ([Ev.lock, Ev.retrieve (.fail ft fv msg), Ev.write ft] ++ pre) ++
                (Ev.shutdownSignal :: [Ev.unlock]) := by
            rw [hpre]
            simp
          have hnosig : ∀ e ∈ [Ev.lock, Ev.retrieve (.fail ft fv msg), Ev.write ft] ++ pre,
              isSigEv e = false :=
            all_no_sig_append (no_sig_forced_pre ft fv msg)
              (fun e hme => retrieveEv_not_sig (hall e hme))
          rw [hsplit, noWriteAfterShutdown_append_no_sig _ _ hnosig]
          rfl
        · have hall1 := inner_no_shutdown_trace O (some eT) fuel 1 0 none r1 h1 hns
          rcases hc2 with ⟨he2, rfl⟩ | ⟨hne2, rfl⟩
          · rcases inner_shutdown_shape O none fuel r1.calls r1.sels none r2 h2 he2 (by simp)
              with ⟨pre2, hpre2, hall2⟩
            show noWriteAfterShutdown
              ([Ev.lock, Ev.retrieve (.fail ft fv msg), Ev.write ft] ++ r1.trace ++ r2.trace ++
                [Ev.unlock]) = true
            have hsplit : [Ev.lock, Ev.retrieve (.fail ft fv msg), Ev.write ft] ++ r1.trace ++
                  r2.trace ++ [Ev.unlock] =
                ([Ev.lock, Ev.retrieve (.fail ft fv msg), Ev.write ft] ++ r1.trace ++ pre2) ++
                  (Ev.shutdownSignal :: [Ev.unlock]) := by
              rw [hpre2]
              simp
            have hnosig : ∀ e ∈ [Ev.lock, Ev.retrieve (.fail ft fv msg), Ev.write ft] ++
                  r1.trace ++ pre2, isSigEv e = false :=
              all_no_sig_append
                (all_no_sig_append (no_sig_forced_pre ft fv msg)
                  (fun e hme => retrieveEv_not_sig (hall1 e hme)))
                (fun e hme => retrieveEv_not_sig (hall2 e hme))
            rw [hsplit, noWriteAfterShutdown_append_no_sig _ _ hnosig]
            rfl
          · exact absurd he (by simp)
  · intro buffer O eT fuel r init h he hnl
    rcases refresh_unforced_cases buffer O eT fuel r h with ⟨r1, h1, hc⟩
    rcases hc with ⟨he1, rfl⟩ | ⟨he1, rfl⟩ | ⟨hne, hns, r2, h2, hc2⟩
    · exact absurd he (by simp)
    · exact tokenAfter_of_all_inner init r1.trace (inner_trace_inner O (some eT) fuel 0 0 none r1 h1)
    · exfalso
      rcases hc2 with ⟨he2, rfl⟩ | ⟨hne2, rfl⟩ <;> exact hnl (by simp)

/-- Witness for C7 at concrete inputs: Close preserves a cached token,
and a refresh abandoned by shutdown before its first tick writes
nothing. -/
theorem C7_shutdown_preserves_token_witness :
    (Close ⟨"tok", false⟩).1.token = "tok" ∧
    noWriteAfterShutdown
      (RefreshResult.trace ⟨0, some GoErr.shutdown, 0, [Ev.shutdownSignal]⟩) = true ∧
    tokenAfter "tok"
      (RefreshResult.trace ⟨0, some GoErr.shutdown, 0, [Ev.shutdownSignal]⟩) = "tok" :=
  ⟨(C7_shutdown_preserves_token.1 ⟨"tok", false⟩).1,
   C7_shutdown_preserves_token.2.1 5 (failOracle (some 0)) 1 10 false
     ⟨0, some GoErr.shutdown, 0, [Ev.shutdownSignal]⟩ (by decide) (by decide),
   C7_shutdown_preserves_token.2.2 5 (failOracle (some 0)) 1 10
     ⟨0, some GoErr.shutdown, 0, [Ev.shutdownSignal]⟩ "tok" (by decide) (by decide) (by decide)⟩

/-- Counterexample to claim C4 as stated.  Unforced refresh with
refreshBuffer 5, a Retriever failing twice then succeeding with token t2
and validity 100, one exponential tick: the exponential phase exhausts,
the engine locks and clears the cache, the constant phase succeeds, and
the reader unblocked at the end of recovery observes the freshly fetched
token t2 with a nil error, NOT the invalid-or-expired failure the claim
asserts. -/
theorem C4_counterexample :
    (refresh 5 (stdOracle 2 "t2" 100) 1 10 false).map
        (fun r => (r.trace, r.err, GetToken (tokenAfter "old" r.trace))) =
      some ([.retrieve (.fail "" 0 "fail"), .lock, .write "",
             .retrieve (.fail "" 0 "fail"), .retrieve (.ok "t2" 100),
             .write "t2", .unlock],
            none, ("t2", none)) := by decide

/-- Claim C4 as amended.  When the exponential phase of an unforced
refresh exhausts its maximum elapsed time without success, the engine
acquires the exclusive lock, clears the cached token to the empty string
before entering the constant phase, and runs the whole constant phase
while still holding that lock, so every token write of the execution
happens under the lock and a concurrent reader is blocked for the whole
recovery; the stale token is never observed once the reader unblocks:
if recovery succeeded the cache then holds the newly fetched token and
GetToken returns it without error, and if recovery was abandoned by
shutdown the cache holds the empty string and GetToken returns the
invalid-or-expired failure. -/
theorem C4_amended_expire_lock_recovery (k : Nat) (buffer : Int) (t : String) (v : Int)
    (eT fuel : Nat) (init : String)
    (hT : 1 ≤ eT) (hk : eT < k) (hf : k + 2 ≤ fuel) (ht : t ≠ "") :
    (∃ r, refresh buffer (stdOracle k t v) eT fuel false = some r ∧
       r.err = none ∧
       r.trace = List.replicate eT (Ev.retrieve (.fail "" 0 "fail")) ++
         [Ev.lock, Ev.write ""] ++
         (List.replicate (k - eT) (Ev.retrieve (.fail "" 0 "fail")) ++
           [Ev.retrieve (.ok t v)]) ++ [Ev.write t, Ev.unlock] ∧
       writesLocked false r.trace = true ∧
       tokenAfter init r.trace = t ∧
       GetToken (tokenAfter init r.trace) = (t, none)) ∧
    (∃ r, refresh buffer (failOracle (some (eT + 1))) eT fuel false = some r ∧
       r.err = some GoErr.shutdown ∧
       r.trace = List.replicate eT (Ev.retrieve (.fail "" 0 "fail")) ++
         [Ev.lock, Ev.write ""] ++ [Ev.shutdownSignal] ++ [Ev.unlock] ∧
       tokenAfter init r.trace = "" ∧
       GetToken (tokenAfter init r.trace) = ("", some GoErr.invalidOrExpired)) := by
  have hArep : ∀ e ∈ List.replicate eT (Ev.retrieve (.fail "" 0 "fail")),
      innerEv e = true := by
    intro e hme
    rw [List.eq_of_mem_replicate hme]
    rfl
  constructor
  · -- recovery by a successful constant-phase fetch
    have h1 := inner_exhaust_run (stdOracle k t v) eT fuel 0 0 hT
      (fun j hj => by simp only [stdOracle]; rw [if_pos (by omega)])
      (fun j hj => by simp [stdOracle])
      (by omega)
    have h2 := inner_ok_run (stdOracle k t v) t v (k - eT) none fuel
      (0 + eT) (0 + eT + 1) none
      (fun j hj => by simp only [stdOracle]; rw [if_pos (by omega)])
      (by simp only [stdOracle]; rw [if_neg (by omega)])
      (fun j hj => by simp [stdOracle])
      (fun n hn => Option.noConfusion hn)
      (by omega)
    have hR : refresh buffer (stdOracle k t v) eT fuel false =
        some ⟨v - buffer, none, 0 + eT + (k - eT) + 1,
          List.replicate eT (Ev.retrieve (.fail "" 0 "fail")) ++
            [Ev.lock, Ev.write ""] ++
            (List.replicate (k - eT) (Ev.retrieve (.fail "" 0 "fail")) ++
              [Ev.retrieve (.ok t v)]) ++ [Ev.write t, Ev.unlock]⟩ := by
      rw [refresh, if_neg (by simp)]
      simp only [h1]
      rw [if_neg (by simp), if_neg (by simp)]
      simp only [h2]
      rw [if_neg (by simp)]
    have hCrep : ∀ e ∈ List.replicate (k - eT) (Ev.retrieve (.fail "" 0 "fail")) ++
        [Ev.retrieve (.ok t v)], innerEv e = true := by
      intro e hme
      rcases List.mem_append.mp hme with hr | hs
      · rw [List.eq_of_mem_replicate hr]
        rfl
      · rcases List.mem_singleton.mp hs with rfl
        rfl
    have hCinner : ∀ e ∈ List.replicate (k - eT) (Ev.retrieve (.fail "" 0 "fail")),
        innerEv e = true := by
      intro e hme
      rw [List.eq_of_mem_replicate hme]
      rfl
    have htok : tokenAfter init
        (List.replicate eT (Ev.retrieve (.fail "" 0 "fail")) ++
          [Ev.lock, Ev.write ""] ++
          (List.replicate (k - eT) (Ev.retrieve (.fail "" 0 "fail")) ++
            [Ev.retrieve (.ok t v)]) ++ [Ev.write t, Ev.unlock]) = t := by
      have hA : tokenAfter init (List.replicate eT (Ev.retrieve (.fail "" 0 "fail"))) = init :=
        tokenAfter_of_all_inner init _ hArep
      have hC : ∀ x, tokenAfter x
          (List.replicate (k - eT) (Ev.retrieve (.fail "" 0 "fail"))) = x :=
        fun x => tokenAfter_of_all_inner x _ hCinner
      simp [tokenAfter_append, hA, hC, tokenAfter]
    have hwl : writesLocked false
        (List.replicate eT (Ev.retrieve (.fail "" 0 "fail")) ++
          [Ev.lock, Ev.write ""] ++
          (List.replicate (k - eT) (Ev.retrieve (.fail "" 0 "fail")) ++
            [Ev.retrieve (.ok t v)]) ++ [Ev.write t, Ev.unlock]) = true := by
      have hA : ∀ (b : Bool) (ys : List Ev), writesLocked b
          (List.replicate eT (Ev.retrieve (.fail "" 0 "fail")) ++ ys) = writesLocked b ys :=
        fun b ys => writesLocked_inner_append b _ ys hArep
      have hC : ∀ (b : Bool) (ys : List Ev), writesLocked b
          (List.replicate (k - eT) (Ev.retrieve (.fail "" 0 "fail")) ++ ys) =
            writesLocked b ys :=
        fun b ys => writesLocked_inner_append b _ ys hCinner
      simp [List.append_assoc, hA, hC, writesLocked]
    refine ⟨_, hR, rfl, rfl, hwl, htok, ?_⟩
    show GetToken (tokenAfter init _) = (t, none)
    rw [htok, GetToken, if_neg ht]
  · -- recovery abandoned by shutdown at the first constant-phase select
    have h1 := inner_exhaust_run (failOracle (some (eT + 1))) eT fuel 0 0 hT
      (fun j hj => rfl)
      (fun j hj => by simp only [failOracle]; simp; omega)
      (by omega)
    have h2 : refreshInner (failOracle (some (eT + 1))) none fuel (0 + eT) (0 + eT + 1) none =
        some ⟨"", 0, some GoErr.shutdown, 0 + eT, 0 + eT + 1 + 1, [Ev.shutdownSignal]⟩ := by
      obtain ⟨f, rfl⟩ : ∃ f, fuel = f + 1 := ⟨fuel - 1, by omega⟩
      rw [refreshInner]
      rw [if_pos (by simp [failOracle])]
    have hR : refresh buffer (failOracle (some (eT + 1))) eT fuel false =
        some ⟨0, some GoErr.shutdown, 0 + eT,
          List.replicate eT (Ev.retrieve (.fail "" 0 "fail")) ++
            [Ev.lock, Ev.write ""] ++ [Ev.shutdownSignal] ++ [Ev.unlock]⟩ := by
      rw [refresh, if_neg (by simp)]
      simp only [h1]
      rw [if_neg (by simp), if_neg (by simp)]
      simp only [h2]
      simp
    have htok : tokenAfter init
        (List.replicate eT (Ev.retrieve (.fail "" 0 "fail")) ++
          [Ev.lock, Ev.write ""] ++ [Ev.shutdownSignal] ++ [Ev.unlock]) = "" := by
      rw [tokenAfter_append, tokenAfter_append, tokenAfter_append]
      rw [tokenAfter_of_all_inner init _ hArep]
      rfl
    refine ⟨_, hR, rfl, rfl, htok, ?_⟩
    show GetToken (tokenAfter init _) = ("", some GoErr.invalidOrExpired)
    rw [htok]
    rfl

/-- Witness for the amended C4 at a concrete input. -/
theorem C4_amended_expire_lock_recovery_witness :
    (∃ r, refresh 5 (stdOracle 2 "t2" 100) 1 10 false = some r ∧
       r.err = none ∧
       r.trace = List.replicate 1 (Ev.retrieve (.fail "" 0 "fail")) ++
         [Ev.lock, Ev.write ""] ++
         (List.replicate (2 - 1) (Ev.retrieve (.fail "" 0 "fail")) ++
           [Ev.retrieve (.ok "t2" 100)]) ++ [Ev.write "t2", Ev.unlock] ∧
       writesLocked false r.trace = true ∧
       tokenAfter "old" r.trace = "t2" ∧
       GetToken (tokenAfter "old" r.trace) = ("t2", none)) ∧
    (∃ r, refresh 5 (failOracle (some (1 + 1))) 1 10 false = some r ∧
       r.err = some GoErr.shutdown ∧
       r.trace = List.replicate 1 (Ev.retrieve (.fail "" 0 "fail")) ++
         [Ev.lock, Ev.write ""] ++ [Ev.shutdownSignal] ++ [Ev.unlock] ∧
       tokenAfter "old" r.trace = "" ∧
       GetToken (tokenAfter "old" r.trace) = ("", some GoErr.invalidOrExpired)) :=
  C4_amended_expire_lock_recovery 2 5 "t2" 100 1 10 "old"
    (by decide) (by decide) (by decide) (by decide)

end Backoff
